import Mathlib

/-!
Shallow embedding of the indicator/signal engine of `src/main.py`
(bitcoin-tracker-backend).

Modelling conventions:
  * a pandas numeric series is modelled as its index function `Nat → ℚ`
    (obtained from the close-price list via `atIdx`); machine floats are
    modelled as exact rationals;
  * a float value that is NaN (warm-up gap of a rolling window, or a 0/0)
    is modelled as `none : Option ℚ`; pandas/Python comparisons involving
    NaN are `False`, which `nanGt`/`nanLt` reproduce on `none`;
  * an IEEE division `g / 0` with `g > 0` yields `+inf`, which propagates
    through `100 - 100/(1 + rs)` to exactly `100`; `0 / 0` yields NaN.
    `compute_rsiAt` makes these two float cases explicit;
  * `series.rolling(window=p).std()` takes a real square root, which is not
    exactly representable in `ℚ`.  The embedding abstracts the square-root
    operation as a parameter `sqrtFn : ℚ → ℚ`; theorems constrain it exactly
    by the property of IEEE `sqrt` they use (nonnegative on nonnegative
    inputs).  Everything else about the Bollinger computation is concrete.
-/

/-- Value of a close-price series at an index (`series[i]`); positions are
only ever read at `i <` length in the theorems below. -/
def atIdx (xs : List ℚ) (i : Nat) : ℚ := xs.getD i 0

/-- Indices of the trailing window of size `p` ending at `i`
(`series.rolling(window=p)` at row `i`): `[i+1-p, …, i]`. -/
def windowIdx (p i : Nat) : List Nat := List.range' (i + 1 - p) p

/-- Python/pandas `a > b` where either side may be NaN: NaN comparisons are
`False`. -/
def nanGt : Option ℚ → Option ℚ → Bool
  | some x, some y => decide (y < x)
  | _, _ => false

/-- Python/pandas `a < b` where either side may be NaN: NaN comparisons are
`False`. -/
def nanLt : Option ℚ → Option ℚ → Bool
  | some x, some y => decide (x < y)
  | _, _ => false

/-- Embedding of `series.rolling(window=p).mean()` at row `i`: NaN (`none`)
before the warm-up window is full, else the mean of the trailing `p` values. -/
def rollMeanAt (f : Nat → ℚ) (p i : Nat) : Option ℚ :=
  if i + 1 < p then none
  else some (((windowIdx p i).map f).sum / (p : ℚ))

/-- Embedding of `series.ewm(span=span, adjust=False).mean()` at row `i`:
`EMA[0] = x[0]`, `EMA[i] = α·x[i] + (1-α)·EMA[i-1]` with `α = 2/(span+1)`. -/
def emaAt (f : Nat → ℚ) (span : Nat) : Nat → ℚ
  | 0 => f 0
  | i + 1 =>
      (2 / ((span : ℚ) + 1)) * f (i + 1)
        + (1 - 2 / ((span : ℚ) + 1)) * emaAt f span i

/-- Embedding of `series.diff()` at row `i` (`compute_rsi` line
`delta = series.diff()`): NaN at row 0. -/
def deltaAt (f : Nat → ℚ) (i : Nat) : Option ℚ :=
  if i = 0 then none else some (f i - f (i - 1))

/-- Embedding of `delta.where(delta > 0, 0)` at row `i`: NaN compares as
`False`, so row 0 becomes `0`. -/
def gainAt (f : Nat → ℚ) (i : Nat) : ℚ :=
  match deltaAt f i with
  | some d => if 0 < d then d else 0
  | none => 0

/-- Embedding of `-delta.where(delta < 0, 0)` at row `i`. -/
def lossAt (f : Nat → ℚ) (i : Nat) : ℚ :=
  match deltaAt f i with
  | some d => if d < 0 then -d else 0
  | none => 0

/-- Rolling mean of the gains (`gain` in `compute_rsi`). -/
def avgGainAt (f : Nat → ℚ) (p i : Nat) : Option ℚ :=
  if i + 1 < p then none
  else some (((windowIdx p i).map (gainAt f)).sum / (p : ℚ))

/-- Rolling mean of the losses (`loss` in `compute_rsi`). -/
def avgLossAt (f : Nat → ℚ) (p i : Nat) : Option ℚ :=
  if i + 1 < p then none
  else some (((windowIdx p i).map (lossAt f)).sum / (p : ℚ))

/-- Embedding of `compute_rsi` at row `i`: `rs = gain/loss`,
`rsi = 100 - 100/(1+rs)`.  Float semantics of the division made explicit:
during warm-up both averages are NaN, so `rsi` is NaN; past warm-up, if
`loss = 0` then `rs` is `+inf` when `gain > 0` (so `rsi = 100`) and NaN when
`gain = 0` (so `rsi` is NaN); otherwise the arithmetic is exact. -/
def compute_rsiAt (f : Nat → ℚ) (p i : Nat) : Option ℚ :=
  match avgGainAt f p i, avgLossAt f p i with
  | some g, some l =>
      if l = 0 then (if g = 0 then none else some 100)
      else some (100 - 100 / (1 + g / l))
  | _, _ => none

/-- Embedding of the `macd` line of `compute_macd`:
`ewm(span=short) - ewm(span=long)` at row `i`. -/
def compute_macdAt (f : Nat → ℚ) (shortPeriod longPeriod i : Nat) : ℚ :=
  emaAt f shortPeriod i - emaAt f longPeriod i

/-- Embedding of the `signal` line of `compute_macd`:
`macd.ewm(span=signal_period, adjust=False).mean()` at row `i`. -/
def macdSignalAt (f : Nat → ℚ) (shortPeriod longPeriod signalPeriod i : Nat) : ℚ :=
  emaAt (compute_macdAt f shortPeriod longPeriod) signalPeriod i

/-- Embedding of `series.rolling(window=p).std()` squared, i.e. the rolling
sample variance (pandas default `ddof=1`): NaN during warm-up, and NaN when
`p < 2` (degrees of freedom exhausted). -/
def rollVarAt (f : Nat → ℚ) (p i : Nat) : Option ℚ :=
  if i + 1 < p ∨ p < 2 then none
  else
    some ((((windowIdx p i).map f).map
        (fun x => (x - ((windowIdx p i).map f).sum / (p : ℚ)) ^ 2)).sum
      / ((p : ℚ) - 1))

/-- Embedding of `series.rolling(window=p).std()` at row `i`, with the square
root abstracted as `sqrtFn` (see module comment). -/
def rollStdAt (sqrtFn : ℚ → ℚ) (f : Nat → ℚ) (p i : Nat) : Option ℚ :=
  (rollVarAt f p i).map sqrtFn

/-- Embedding of `upper_band = sma + std_dev * std` of
`compute_bollinger_bands` at row `i`. -/
def upperBandAt (sqrtFn : ℚ → ℚ) (f : Nat → ℚ) (p : Nat) (k : ℚ) (i : Nat) :
    Option ℚ :=
  match rollMeanAt f p i, rollStdAt sqrtFn f p i with
  | some m, some s => some (m + k * s)
  | _, _ => none

/-- Embedding of `lower_band = sma - std_dev * std` of
`compute_bollinger_bands` at row `i`. -/
def lowerBandAt (sqrtFn : ℚ → ℚ) (f : Nat → ℚ) (p : Nat) (k : ℚ) (i : Nat) :
    Option ℚ :=
  match rollMeanAt f p i, rollStdAt sqrtFn f p i with
  | some m, some s => some (m - k * s)
  | _, _ => none

/-- Embedding of `compute_momentum`, i.e. `series.diff(period)` at row `i`:
NaN for the first `period` rows. -/
def compute_momentumAt (f : Nat → ℚ) (p i : Nat) : Option ℚ :=
  if i < p then none else some (f i - f (i - p))

/-- Sequence a list of possibly-NaN values: `none` as soon as one entry is
NaN (pandas rolling aggregations over a window containing NaN yield NaN). -/
def seqOpt : List (Option ℚ) → Option (List ℚ)
  | [] => some []
  | none :: _ => none
  | some x :: rest => (seqOpt rest).map (fun l => x :: l)

/-- Embedding of `compute_stoch_rsi` at row `i`:
`100 * (series - rolling_min) / (rolling_max - rolling_min)`.  The input may
itself contain NaN (the pipeline applies it to the RSI column), and a window
containing a NaN has NaN min/max; a flat window gives the float `0/0`, i.e.
NaN. -/
def compute_stoch_rsiAt (g : Nat → Option ℚ) (p i : Nat) : Option ℚ :=
  if i + 1 < p then none
  else
    match seqOpt ((windowIdx p i).map g), g i with
    | some w, some xi =>
        if w.foldr max xi = w.foldr min xi then none
        else some (100 * (xi - w.foldr min xi) / (w.foldr max xi - w.foldr min xi))
    | _, _ => none

/-- One row of the enriched dataframe built by `calculate_indicators`: the
close plus one field per indicator column, each possibly NaN. -/
structure Row where
  close : Option ℚ
  SMA_10 : Option ℚ
  SMA_50 : Option ℚ
  EMA_10 : Option ℚ
  EMA_50 : Option ℚ
  RSI : Option ℚ
  MACD : Option ℚ
  Signal : Option ℚ
  Upper_Band : Option ℚ
  Lower_Band : Option ℚ
  Momentum : Option ℚ
  Stoch_RSI : Option ℚ
  deriving DecidableEq, Repr

/-- Row with every field NaN (the default for out-of-range access). -/
def emptyRow : Row :=
  { close := none, SMA_10 := none, SMA_50 := none, EMA_10 := none
    EMA_50 := none, RSI := none, MACD := none, Signal := none
    Upper_Band := none, Lower_Band := none, Momentum := none
    Stoch_RSI := none }

instance : Inhabited Row := ⟨emptyRow⟩

/-- Row `i` of the enriched dataframe: each column of `calculate_indicators`
evaluated at index `i` with the parameters hard-coded in the source. -/
def rowAt (sqrtFn : ℚ → ℚ) (closes : List ℚ) (i : Nat) : Row :=
  { close := some (atIdx closes i)
    SMA_10 := rollMeanAt (atIdx closes) 10 i
    SMA_50 := rollMeanAt (atIdx closes) 50 i
    EMA_10 := some (emaAt (atIdx closes) 10 i)
    EMA_50 := some (emaAt (atIdx closes) 50 i)
    RSI := compute_rsiAt (atIdx closes) 14 i
    MACD := some (compute_macdAt (atIdx closes) 12 26 i)
    Signal := some (macdSignalAt (atIdx closes) 12 26 9 i)
    Upper_Band := upperBandAt sqrtFn (atIdx closes) 20 2 i
    Lower_Band := lowerBandAt sqrtFn (atIdx closes) 20 2 i
    Momentum := compute_momentumAt (atIdx closes) 10 i
    Stoch_RSI := compute_stoch_rsiAt (compute_rsiAt (atIdx closes) 14) 14 i }

/-- Embedding of `calculate_indicators`: the enriched dataframe as the list
of its rows, one per input bar. -/
def calculate_indicators (sqrtFn : ℚ → ℚ) (closes : List ℚ) : List Row :=
  (List.range closes.length).map (rowAt sqrtFn closes)

/-- The `if latest["SMA_10"] > latest["SMA_50"]` rule of `get_signals`. -/
def smaRule (r : Row) : List String :=
  if nanGt r.SMA_10 r.SMA_50 then ["BUY: SMA Crossover"] else []

/-- The `if latest["EMA_10"] > latest["EMA_50"]` rule of `get_signals`. -/
def emaRule (r : Row) : List String :=
  if nanGt r.EMA_10 r.EMA_50 then ["BUY: EMA Crossover"] else []

/-- The `if latest["RSI"] < 30` rule of `get_signals`. -/
def rsiRule (r : Row) : List String :=
  if nanLt r.RSI (some 30) then ["BUY: RSI Oversold"] else []

/-- The `if latest["MACD"] > latest["Signal"]` rule of `get_signals`. -/
def macdRule (r : Row) : List String :=
  if nanGt r.MACD r.Signal then ["BUY: MACD Trend"] else []

/-- The `if latest["close"] > latest["Upper_Band"]` rule of `get_signals`. -/
def bollSellRule (r : Row) : List String :=
  if nanGt r.close r.Upper_Band
  then ["SELL: Bollinger Band Breakout (Overbought)"] else []

/-- The `if latest["close"] < latest["Lower_Band"]` rule of `get_signals`. -/
def bollBuyRule (r : Row) : List String :=
  if nanLt r.close r.Lower_Band
  then ["BUY: Bollinger Band Breakout (Oversold)"] else []

/-- The `if latest["Momentum"] > 0` rule of `get_signals`. -/
def momBuyRule (r : Row) : List String :=
  if nanGt r.Momentum (some 0) then ["BUY: Positive Momentum"] else []

/-- The `if latest["Momentum"] < 0` rule of `get_signals`. -/
def momSellRule (r : Row) : List String :=
  if nanLt r.Momentum (some 0) then ["SELL: Negative Momentum"] else []

/-- The `if latest["Stoch_RSI"] > 80` rule of `get_signals`. -/
def stochSellRule (r : Row) : List String :=
  if nanGt r.Stoch_RSI (some 80)
  then ["SELL: Stochastic RSI Overbought"] else []

/-- The `if latest["Stoch_RSI"] < 20` rule of `get_signals`. -/
def stochBuyRule (r : Row) : List String :=
  if nanLt r.Stoch_RSI (some 20)
  then ["BUY: Stochastic RSI Oversold"] else []

/-- Embedding of `get_signals` applied to the latest row: the appends of the
source, in source order. -/
def get_signals (r : Row) : List String :=
  smaRule r ++ emaRule r ++ rsiRule r ++ macdRule r ++
  bollSellRule r ++ bollBuyRule r ++ momBuyRule r ++ momSellRule r ++
  stochSellRule r ++ stochBuyRule r

/-- Embedding of the alert text built in `track_price` (decimal float
formatting of the price is abstracted to `toString`). -/
def alertMessage (price : ℚ) (signals : List String) : String :=
  "Bitcoin Price: $" ++ toString price ++ " Signals: " ++
    String.intercalate ", " signals

/-- Result of one `/bitcoin` request: the JSON response fields, whether a
Telegram task was scheduled, and whether the transport reported success
(HTTP 200). -/
structure TrackResult where
  price : ℚ
  signals : List String
  dispatched : Bool
  delivered : Bool
  deriving Repr

/-- Embedding of `send_telegram_alert` with the HTTP transport abstracted as
`transport`: the function only logs on failure, so its observable outcome is
the transport's status. -/
def send_telegram_alert (transport : String → Bool) (message : String) : Bool :=
  transport message

/-- Embedding of `track_price`: enrich the fetched closes, read the signals
and the latest close, and schedule the alert only when the signal list is
non-empty.  The transport outcome is recorded but never flows into the
response fields. -/
def track_price (sqrtFn : ℚ → ℚ) (transport : String → Bool)
    (closes : List ℚ) : TrackResult :=
  let rows := calculate_indicators sqrtFn closes
  let signals := get_signals (rows.getD (rows.length - 1) emptyRow)
  let price := atIdx closes (closes.length - 1)
  { price := price
    signals := signals
    dispatched := decide (signals ≠ [])
    delivered :=
      if signals ≠ [] then send_telegram_alert transport (alertMessage price signals)
      else true }

/-- Agreement of two series on all indices up to `i`: the indicator
functions above read their input only through indices `≤ i` when producing
the value at row `i`. -/
def agreeUpTo {α : Type} (i : Nat) (f g : Nat → α) : Prop :=
  ∀ j, j ≤ i → f j = g j

/-- Latest row with all trend indicators defined and each short value below
its long counterpart (`SMA_10 < SMA_50`, `EMA_10 < EMA_50`,
`MACD < Signal`); all other indicators NaN. -/
def c1Row : Row :=
  { emptyRow with SMA_10 := some 1, SMA_50 := some 2, EMA_10 := some 3
                  EMA_50 := some 4, MACD := some 5, Signal := some 6 }

/-- Concrete row for the C1 witness: `SMA_10 > SMA_50`, `EMA_10 < EMA_50`,
`MACD > Signal`, all trend indicators defined. -/
def c1WitnessRow : Row :=
  { emptyRow with SMA_10 := some 3, SMA_50 := some 1, EMA_10 := some 2
                  EMA_50 := some 5, MACD := some 7, Signal := some 6 }

/-- Latest row whose RSI is 80 (above the claimed sell threshold 70); all
other indicators NaN. -/
def c2Row : Row := { emptyRow with RSI := some 80 }

/-- Row with RSI = 25 for the C2 witness. -/
def c2WitnessRow : Row := { emptyRow with RSI := some 25 }

/-! ### Membership in the signal list -/

theorem mem_cond_singleton {c : Bool} {a b : String} :
    a ∈ (if c = true then [b] else []) ↔ (c = true ∧ a = b) := by
  cases c <;> simp

theorem nanGt_some_some {x y : ℚ} : nanGt (some x) (some y) = true ↔ y < x := by
  simp [nanGt]

theorem nanLt_some_some {x y : ℚ} : nanLt (some x) (some y) = true ↔ x < y := by
  simp [nanLt]

/-- Exhaustive description of membership in the output of `get_signals`:
each label appears exactly when its rule's comparison holds. -/
theorem mem_get_signals_iff (r : Row) (s : String) :
    s ∈ get_signals r ↔
      (nanGt r.SMA_10 r.SMA_50 = true ∧ s = "BUY: SMA Crossover") ∨
      (nanGt r.EMA_10 r.EMA_50 = true ∧ s = "BUY: EMA Crossover") ∨
      (nanLt r.RSI (some 30) = true ∧ s = "BUY: RSI Oversold") ∨
      (nanGt r.MACD r.Signal = true ∧ s = "BUY: MACD Trend") ∨
      (nanGt r.close r.Upper_Band = true ∧
        s = "SELL: Bollinger Band Breakout (Overbought)") ∨
      (nanLt r.close r.Lower_Band = true ∧
        s = "BUY: Bollinger Band Breakout (Oversold)") ∨
      (nanGt r.Momentum (some 0) = true ∧ s = "BUY: Positive Momentum") ∨
      (nanLt r.Momentum (some 0) = true ∧ s = "SELL: Negative Momentum") ∨
      (nanGt r.Stoch_RSI (some 80) = true ∧
        s = "SELL: Stochastic RSI Overbought") ∨
      (nanLt r.Stoch_RSI (some 20) = true ∧
        s = "BUY: Stochastic RSI Oversold") := by
  simp only [get_signals, smaRule, emaRule, rsiRule, macdRule, bollSellRule,
    bollBuyRule, momBuyRule, momSellRule, stochSellRule, stochBuyRule,
    List.mem_append, mem_cond_singleton, or_assoc]

/-- Every emitted signal is one of the ten labels of the source; in
particular no SELL label exists for the SMA/EMA/MACD crossover rules and no
overbought label exists for the RSI rule. -/
theorem get_signals_labels (r : Row) (s : String) (hs : s ∈ get_signals r) :
    s ∈ ["BUY: SMA Crossover", "BUY: EMA Crossover", "BUY: RSI Oversold",
         "BUY: MACD Trend", "SELL: Bollinger Band Breakout (Overbought)",
         "BUY: Bollinger Band Breakout (Oversold)", "BUY: Positive Momentum",
         "SELL: Negative Momentum", "SELL: Stochastic RSI Overbought",
         "BUY: Stochastic RSI Oversold"] := by
  rw [mem_get_signals_iff] at hs
  simp only [List.mem_cons, List.not_mem_nil, or_false]
  tauto

theorem nanGt_none_left (b : Option ℚ) : nanGt none b = false := by
  cases b <;> rfl

theorem nanGt_none_right (a : Option ℚ) : nanGt a none = false := by
  cases a <;> rfl

theorem nanLt_none_left (b : Option ℚ) : nanLt none b = false := by
  cases b <;> rfl

theorem nanLt_none_right (a : Option ℚ) : nanLt a none = false := by
  cases a <;> rfl

/-! ### C1: trend crossover rules -/

/-- C1 counterexample: on a row where SMA(short) < SMA(long),
EMA(short) < EMA(long) and MACD < Signal, the claim demands the three SELL
crossover signals, but `get_signals` emits no signal at all — the source has
no SELL branch for any trend rule. -/
theorem C1_counterexample :
    get_signals c1Row = [] ∧
    "SELL: SMA Crossover" ∉ get_signals c1Row ∧
    "SELL: EMA Crossover" ∉ get_signals c1Row ∧
    "SELL: MACD Trend" ∉ get_signals c1Row := by
  refine ⟨by decide, ?_, ?_, ?_⟩ <;> decide

/-- C1 (amended): for a latest row with all trend indicators defined, each
trend BUY signal is emitted exactly when the short value exceeds the long
one, and no SELL trend signal is ever emitted (the rule table has no SELL
branch for SMA/EMA/MACD). -/
theorem C1_trend_rules_buy_only (r : Row) (s10 s50 e10 e50 m sg : ℚ)
    (h1 : r.SMA_10 = some s10) (h2 : r.SMA_50 = some s50)
    (h3 : r.EMA_10 = some e10) (h4 : r.EMA_50 = some e50)
    (h5 : r.MACD = some m) (h6 : r.Signal = some sg) :
    ("BUY: SMA Crossover" ∈ get_signals r ↔ s50 < s10) ∧
    ("BUY: EMA Crossover" ∈ get_signals r ↔ e50 < e10) ∧
    ("BUY: MACD Trend" ∈ get_signals r ↔ sg < m) ∧
    ∀ s ∈ get_signals r,
      s ≠ "SELL: SMA Crossover" ∧ s ≠ "SELL: EMA Crossover" ∧
      s ≠ "SELL: MACD Trend" := by
  refine ⟨?_, ?_, ?_, ?_⟩
  · rw [mem_get_signals_iff]
    simp [h1, h2, nanGt_some_some]
  · rw [mem_get_signals_iff]
    simp [h3, h4, nanGt_some_some]
  · rw [mem_get_signals_iff]
    simp [h5, h6, nanGt_some_some]
  · intro s hs
    have hl := get_signals_labels r s hs
    fin_cases hl <;> exact ⟨by decide, by decide, by decide⟩

/-- Witness for `C1_trend_rules_buy_only` at a concrete row. -/
theorem C1_trend_rules_buy_only_witness :
    ("BUY: SMA Crossover" ∈ get_signals c1WitnessRow ↔ (1 : ℚ) < 3) ∧
    ("BUY: EMA Crossover" ∈ get_signals c1WitnessRow ↔ (5 : ℚ) < 2) ∧
    ("BUY: MACD Trend" ∈ get_signals c1WitnessRow ↔ (6 : ℚ) < 7) ∧
    ∀ s ∈ get_signals c1WitnessRow,
      s ≠ "SELL: SMA Crossover" ∧ s ≠ "SELL: EMA Crossover" ∧
      s ≠ "SELL: MACD Trend" :=
  C1_trend_rules_buy_only c1WitnessRow 3 1 2 5 7 6 rfl rfl rfl rfl rfl rfl

/-! ### C2: RSI rule -/

/-- C2 counterexample: on a row with RSI = 80 > 70 the claim demands a
SELL/RSI_OVERBOUGHT signal, but `get_signals` emits no signal at all — the
source has no RSI overbought rule. -/
theorem C2_counterexample :
    get_signals c2Row = [] ∧ "SELL: RSI Overbought" ∉ get_signals c2Row := by
  exact ⟨by decide, by decide⟩

/-- C2 (amended): for a latest row with RSI defined, BUY/RSI_OVERSOLD is
emitted exactly when RSI < 30, and no RSI overbought SELL signal is ever
emitted (the rule table has no such rule). -/
theorem C2_rsi_rule_buy_only (r : Row) (v : ℚ) (h : r.RSI = some v) :
    ("BUY: RSI Oversold" ∈ get_signals r ↔ v < 30) ∧
    ∀ s ∈ get_signals r, s ≠ "SELL: RSI Overbought" := by
  constructor
  · rw [mem_get_signals_iff]
    simp [h, nanLt_some_some]
  · intro s hs
    have hl := get_signals_labels r s hs
    fin_cases hl <;> decide

/-- Witness for `C2_rsi_rule_buy_only` at a concrete row. -/
theorem C2_rsi_rule_buy_only_witness :
    ("BUY: RSI Oversold" ∈ get_signals c2WitnessRow ↔ (25 : ℚ) < 30) ∧
    ∀ s ∈ get_signals c2WitnessRow, s ≠ "SELL: RSI Overbought" :=
  C2_rsi_rule_buy_only c2WitnessRow 25 rfl

/-! ### C4: undefined indicators produce no signal and no error -/

/-- C4: a rule whose required indicator is NaN at the latest row contributes
no signal (its conditional block is empty), and the signal list is exactly
the concatenation of the ten independent rule blocks, so all other rules are
still evaluated; `get_signals` is total, so no error is possible. -/
theorem C4_undefined_indicator_skips_rule (r : Row) :
    ((r.SMA_10 = none ∨ r.SMA_50 = none) → smaRule r = []) ∧
    ((r.EMA_10 = none ∨ r.EMA_50 = none) → emaRule r = []) ∧
    (r.RSI = none → rsiRule r = []) ∧
    ((r.MACD = none ∨ r.Signal = none) → macdRule r = []) ∧
    ((r.close = none ∨ r.Upper_Band = none) → bollSellRule r = []) ∧
    ((r.close = none ∨ r.Lower_Band = none) → bollBuyRule r = []) ∧
    (r.Momentum = none → momBuyRule r = [] ∧ momSellRule r = []) ∧
    (r.Stoch_RSI = none → stochSellRule r = [] ∧ stochBuyRule r = []) ∧
    get_signals r =
      smaRule r ++ emaRule r ++ rsiRule r ++ macdRule r ++ bollSellRule r ++
      bollBuyRule r ++ momBuyRule r ++ momSellRule r ++ stochSellRule r ++
      stochBuyRule r := by
  refine ⟨?_, ?_, ?_, ?_, ?_, ?_, ?_, ?_, rfl⟩
  · rintro (h | h) <;>
      simp [smaRule, h, nanGt_none_left, nanGt_none_right]
  · rintro (h | h) <;>
      simp [emaRule, h, nanGt_none_left, nanGt_none_right]
  · intro h
    simp [rsiRule, h, nanLt_none_left]
  · rintro (h | h) <;>
      simp [macdRule, h, nanGt_none_left, nanGt_none_right]
  · rintro (h | h) <;>
      simp [bollSellRule, h, nanGt_none_left, nanGt_none_right]
  · rintro (h | h) <;>
      simp [bollBuyRule, h, nanLt_none_left, nanLt_none_right]
  · intro h
    exact ⟨by simp [momBuyRule, h, nanGt_none_left],
           by simp [momSellRule, h, nanLt_none_left]⟩
  · intro h
    exact ⟨by simp [stochSellRule, h, nanGt_none_left],
           by simp [stochBuyRule, h, nanLt_none_left]⟩

/-- Witness for `C4_undefined_indicator_skips_rule` at the all-NaN row. -/
theorem C4_undefined_indicator_skips_rule_witness :
    (emptyRow.RSI = none ∧ rsiRule emptyRow = []) ∧
    (emptyRow.Momentum = none ∧
      momBuyRule emptyRow = [] ∧ momSellRule emptyRow = []) :=
  ⟨⟨rfl, (C4_undefined_indicator_skips_rule emptyRow).2.2.1 rfl⟩,
   ⟨rfl, (C4_undefined_indicator_skips_rule emptyRow).2.2.2.2.2.2.1 rfl⟩⟩

/-! ### C3: RSI zero-loss and warm-up policy -/

/-- C3: past the warm-up window, if the rolling average loss is zero while
the average gain is defined and positive, `compute_rsi` yields exactly 100
(the float division gives `+inf`, not a crash — the embedding is total); and
where both rolling averages are still NaN from warm-up, the RSI is NaN. -/
theorem C3_rsi_zero_loss_policy (f : Nat → ℚ) (p i : Nat) (g : ℚ) :
    (avgGainAt f p i = some g → 0 < g → avgLossAt f p i = some 0 →
      compute_rsiAt f p i = some 100) ∧
    (avgGainAt f p i = none → avgLossAt f p i = none →
      compute_rsiAt f p i = none) := by
  constructor
  · intro hg hpos hl
    unfold compute_rsiAt
    rw [hg, hl]
    simp [hpos.ne']
  · intro hg hl
    unfold compute_rsiAt
    rw [hg, hl]

/-- Witness for `C3_rsi_zero_loss_policy` on the series `[1, 2, 3]` with
period 2: at index 2 the average loss is 0 and the average gain is 1, so the
RSI is 100; at index 0 both averages are NaN and so is the RSI. -/
theorem C3_rsi_zero_loss_policy_witness :
    (avgGainAt (atIdx [1, 2, 3]) 2 2 = some 1 ∧ (0 : ℚ) < 1 ∧
      avgLossAt (atIdx [1, 2, 3]) 2 2 = some 0 ∧
      compute_rsiAt (atIdx [1, 2, 3]) 2 2 = some 100) ∧
    (avgGainAt (atIdx [1, 2, 3]) 2 0 = none ∧
      compute_rsiAt (atIdx [1, 2, 3]) 2 0 = none) :=
  have hg : avgGainAt (atIdx [1, 2, 3]) 2 2 = some 1 := by
    norm_num [avgGainAt, windowIdx, gainAt, deltaAt, atIdx, List.range']
  have hl : avgLossAt (atIdx [1, 2, 3]) 2 2 = some 0 := by
    norm_num [avgLossAt, windowIdx, lossAt, deltaAt, atIdx, List.range']
  have hg0 : avgGainAt (atIdx [1, 2, 3]) 2 0 = none := by
    norm_num [avgGainAt]
  have hl0 : avgLossAt (atIdx [1, 2, 3]) 2 0 = none := by
    norm_num [avgLossAt]
  ⟨⟨hg, by norm_num, hl,
    (C3_rsi_zero_loss_policy (atIdx [1, 2, 3]) 2 2 1).1 hg (by norm_num) hl⟩,
   ⟨hg0, (C3_rsi_zero_loss_policy (atIdx [1, 2, 3]) 2 0 1).2 hg0 hl0⟩⟩

/-! ### C5: EMA recurrence, no warm-up gap, EMA(1) = id -/

/-- C5: on a non-empty series, the exponential moving average satisfies
`EMA[0] = x[0]` and `EMA[i+1] = α·x[i+1] + (1-α)·EMA[i]` with
`α = 2/(p+1)`; the pipeline's EMA columns are defined at every index (no
warm-up gap), and `EMA(1)` is the input series itself. -/
theorem C5_ema_recurrence (xs : List ℚ) (p : Nat) (hxs : xs ≠ [])
    (hp : 1 ≤ p) :
    emaAt (atIdx xs) p 0 = atIdx xs 0 ∧
    (∀ i, emaAt (atIdx xs) p (i + 1) =
      (2 / ((p : ℚ) + 1)) * atIdx xs (i + 1)
        + (1 - 2 / ((p : ℚ) + 1)) * emaAt (atIdx xs) p i) ∧
    (∀ sqrtFn i, ((rowAt sqrtFn xs i).EMA_10).isSome = true ∧
      ((rowAt sqrtFn xs i).EMA_50).isSome = true) ∧
    (∀ i, emaAt (atIdx xs) 1 i = atIdx xs i) := by
  refine ⟨rfl, fun i => rfl, fun _ _ => ⟨rfl, rfl⟩, ?_⟩
  intro i
  induction i with
  | zero => rfl
  | succ n ih =>
      show (2 / ((1 : ℚ) + 1)) * atIdx xs (n + 1)
          + (1 - 2 / ((1 : ℚ) + 1)) * emaAt (atIdx xs) 1 n = atIdx xs (n + 1)
      rw [ih]
      norm_num

/-- Witness for `C5_ema_recurrence` on the series `[3, 5]` with period 2. -/
theorem C5_ema_recurrence_witness :
    emaAt (atIdx [3, 5]) 2 0 = atIdx [3, 5] 0 ∧
    emaAt (atIdx [3, 5]) 2 1 =
      (2 / ((2 : ℚ) + 1)) * atIdx [3, 5] 1
        + (1 - 2 / ((2 : ℚ) + 1)) * emaAt (atIdx [3, 5]) 2 0 ∧
    emaAt (atIdx [3, 5]) 1 1 = atIdx [3, 5] 1 :=
  ⟨(C5_ema_recurrence [3, 5] 2 (by decide) (by decide)).1,
   (C5_ema_recurrence [3, 5] 2 (by decide) (by decide)).2.1 0,
   (C5_ema_recurrence [3, 5] 2 (by decide) (by decide)).2.2.2 1⟩

/-! ### C6: strictly increasing series -/

theorem lossAt_eq_zero_of_nondecreasing (f : Nat → ℚ) (j : Nat)
    (h : j = 0 ∨ f (j - 1) ≤ f j) : lossAt f j = 0 := by
  unfold lossAt deltaAt
  rcases h with h | h
  · simp [h]
  · by_cases h0 : j = 0
    · simp [h0]
    · rw [if_neg h0]
      simp only
      rw [if_neg (by linarith)]

theorem atIdx_lt_of_strict (xs : List ℚ)
    (hmono : ∀ j, j + 1 < xs.length → atIdx xs j < atIdx xs (j + 1))
    (a b : Nat) (hab : a < b) (hb : b < xs.length) :
    atIdx xs a < atIdx xs b := by
  induction b with
  | zero => omega
  | succ n ih =>
      rcases Nat.lt_succ_iff_lt_or_eq.1 hab with h | h
      · exact lt_trans (ih h (by omega)) (hmono n hb)
      · subst h
        exact hmono a hb

/-- C6: on a strictly increasing series, every defined RSI value equals 100
and every defined Momentum value is strictly positive. -/
theorem C6_monotone_rsi_momentum (xs : List ℚ) (p q : Nat)
    (hmono : ∀ j, j + 1 < xs.length → atIdx xs j < atIdx xs (j + 1))
    (hq : 1 ≤ q) :
    (∀ i v, i < xs.length → compute_rsiAt (atIdx xs) p i = some v →
      v = 100) ∧
    (∀ i m, i < xs.length → compute_momentumAt (atIdx xs) q i = some m →
      0 < m) := by
  constructor
  · intro i v hi hrsi
    cases hg : avgGainAt (atIdx xs) p i with
    | none =>
        unfold compute_rsiAt at hrsi
        rw [hg] at hrsi
        exact absurd hrsi (by simp)
    | some g =>
        cases hl : avgLossAt (atIdx xs) p i with
        | none =>
            unfold compute_rsiAt at hrsi
            rw [hg, hl] at hrsi
            exact absurd hrsi (by simp)
        | some l =>
            have hip : ¬ i + 1 < p := by
              intro hip
              rw [avgLossAt, if_pos hip] at hl
              exact absurd hl (by simp)
            have hl0 : l = 0 := by
              rw [avgLossAt, if_neg hip] at hl
              have hz : ((windowIdx p i).map (lossAt (atIdx xs))).sum = 0 := by
                apply List.sum_eq_zero
                intro x hx
                rcases List.mem_map.1 hx with ⟨j, hj, rfl⟩
                have hji : j ≤ i := by
                  rw [windowIdx, List.mem_range'] at hj
                  omega
                apply lossAt_eq_zero_of_nondecreasing
                rcases Nat.eq_zero_or_pos j with h0 | hpos
                · exact Or.inl h0
                · refine Or.inr (le_of_lt ?_)
                  have := hmono (j - 1) (by omega)
                  rwa [Nat.sub_add_cancel hpos] at this
              rw [hz] at hl
              simpa using hl.symm
            subst hl0
            unfold compute_rsiAt at hrsi
            rw [hg, hl] at hrsi
            by_cases hg0 : g = 0
            · simp [hg0] at hrsi
            · simp [hg0] at hrsi
              exact hrsi.symm
  · intro i m hi hmom
    have hiq : ¬ i < q := by
      intro hiq
      rw [compute_momentumAt, if_pos hiq] at hmom
      exact absurd hmom (by simp)
    rw [compute_momentumAt, if_neg hiq] at hmom
    have hlt : atIdx xs (i - q) < atIdx xs i :=
      atIdx_lt_of_strict xs hmono (i - q) i (by omega) hi
    have := Option.some_injective _ hmom
    linarith [this]

/-- Witness for `C6_monotone_rsi_momentum` on the series `[1, 2, 3]`. -/
theorem C6_monotone_rsi_momentum_witness :
    compute_rsiAt (atIdx [1, 2, 3]) 2 2 = some 100 ∧
    (100 : ℚ) = 100 ∧ (0 : ℚ) < 1 :=
  have hmono : ∀ j, j + 1 < ([1, 2, 3] : List ℚ).length →
      atIdx [1, 2, 3] j < atIdx [1, 2, 3] (j + 1) := by
    intro j hj
    have hj2 : j < 2 := by simp at hj; omega
    interval_cases j <;> norm_num [atIdx]
  have hrsi : compute_rsiAt (atIdx [1, 2, 3]) 2 2 = some 100 := by
    norm_num [compute_rsiAt, avgGainAt, avgLossAt, windowIdx, gainAt, lossAt,
      deltaAt, atIdx, List.range']
  have hmom : compute_momentumAt (atIdx [1, 2, 3]) 1 2 = some 1 := by
    norm_num [compute_momentumAt, atIdx]
  ⟨hrsi,
   (C6_monotone_rsi_momentum [1, 2, 3] 2 1 hmono (by norm_num)).1 2 100
     (by norm_num) hrsi,
   (C6_monotone_rsi_momentum [1, 2, 3] 2 1 hmono (by norm_num)).2 2 1
     (by norm_num) hmom⟩

/-! ### C9: stochastic oscillator formula and flat-window policy -/

theorem seqOpt_map_some (l : List Nat) (f : Nat → ℚ) :
    seqOpt (l.map (fun j => some (f j))) = some (l.map f) := by
  induction l with
  | nil => rfl
  | cons a t ih => simp [seqOpt, ih]

/-- C9: on an everywhere-defined series, the stochastic oscillator at an
index past warm-up equals `100·(x[i] − min)/(max − min)` over the trailing
window when the window is not flat, and is NaN (`none`) when the window is
flat (`max = min`) — the float `0/0` — rather than a raised fault (the
embedding is total). -/
theorem C9_stoch_formula_and_flat_policy (xs : List ℚ) (p i : Nat)
    (hp : 1 ≤ p) (hw : p ≤ i + 1) (hi : i < xs.length) :
    (((windowIdx p i).map (atIdx xs)).foldr max (atIdx xs i) ≠
        ((windowIdx p i).map (atIdx xs)).foldr min (atIdx xs i) →
      compute_stoch_rsiAt (fun j => some (atIdx xs j)) p i =
        some (100 *
            (atIdx xs i -
              ((windowIdx p i).map (atIdx xs)).foldr min (atIdx xs i)) /
          (((windowIdx p i).map (atIdx xs)).foldr max (atIdx xs i) -
            ((windowIdx p i).map (atIdx xs)).foldr min (atIdx xs i)))) ∧
    (((windowIdx p i).map (atIdx xs)).foldr max (atIdx xs i) =
        ((windowIdx p i).map (atIdx xs)).foldr min (atIdx xs i) →
      compute_stoch_rsiAt (fun j => some (atIdx xs j)) p i = none) := by
  constructor
  · intro hne
    unfold compute_stoch_rsiAt
    rw [if_neg (by omega), seqOpt_map_some]
    simp only
    rw [if_neg hne]
  · intro heq
    unfold compute_stoch_rsiAt
    rw [if_neg (by omega), seqOpt_map_some]
    simp only
    rw [if_pos heq]

/-- Witness for `C9_stoch_formula_and_flat_policy`: on `[1, 2]` the window
`[1, 2]` is not flat and the oscillator is `100·(2−1)/(2−1) = 100`; on
`[5, 5]` the window is flat and the oscillator is NaN. -/
theorem C9_stoch_formula_and_flat_policy_witness :
    compute_stoch_rsiAt (fun j => some (atIdx [1, 2] j)) 2 1 = some 100 ∧
    compute_stoch_rsiAt (fun j => some (atIdx [5, 5] j)) 2 1 = none :=
  have hne : ((windowIdx 2 1).map (atIdx [1, 2])).foldr max (atIdx [1, 2] 1) ≠
      ((windowIdx 2 1).map (atIdx [1, 2])).foldr min (atIdx [1, 2] 1) := by
    norm_num [windowIdx, List.range', atIdx]
  have heq : ((windowIdx 2 1).map (atIdx [5, 5])).foldr max (atIdx [5, 5] 1) =
      ((windowIdx 2 1).map (atIdx [5, 5])).foldr min (atIdx [5, 5] 1) := by
    norm_num [windowIdx, List.range', atIdx]
  ⟨by
    rw [(C9_stoch_formula_and_flat_policy [1, 2] 2 1 (by norm_num)
      (by norm_num) (by norm_num)).1 hne]
    norm_num [windowIdx, List.range', atIdx],
   (C9_stoch_formula_and_flat_policy [5, 5] 2 1 (by norm_num) (by norm_num)
      (by norm_num)).2 heq⟩

/-! ### C7: pipeline length and index alignment -/

theorem agreeUpTo_mono {α : Type} {i j : Nat} {f g : Nat → α}
    (h : agreeUpTo i f g) (hj : j ≤ i) : agreeUpTo j f g :=
  fun k hk => h k (le_trans hk hj)

theorem map_windowIdx_congr {α : Type} {i p : Nat} {f g : Nat → α}
    (hw : p ≤ i + 1) (h : agreeUpTo i f g) :
    (windowIdx p i).map f = (windowIdx p i).map g := by
  apply List.map_congr_left
  intro j hj
  rw [windowIdx, List.mem_range'] at hj
  exact h j (by omega)

theorem rollMeanAt_congr {f g : Nat → ℚ} {p i : Nat}
    (h : agreeUpTo i f g) : rollMeanAt f p i = rollMeanAt g p i := by
  unfold rollMeanAt
  by_cases hip : i + 1 < p
  · simp [hip]
  · rw [if_neg hip, if_neg hip, map_windowIdx_congr (by omega) h]

theorem emaAt_congr {f g : Nat → ℚ} {p : Nat} :
    ∀ {i : Nat}, agreeUpTo i f g → emaAt f p i = emaAt g p i
  | 0, h => by simp [emaAt, h 0 (le_refl 0)]
  | i + 1, h => by
      simp only [emaAt]
      rw [h (i + 1) (le_refl _),
        emaAt_congr (agreeUpTo_mono h (Nat.le_succ i))]

theorem gainAt_congr {f g : Nat → ℚ} {i j : Nat}
    (h : agreeUpTo i f g) (hj : j ≤ i) : gainAt f j = gainAt g j := by
  unfold gainAt deltaAt
  rw [h j hj, h (j - 1) (le_trans (Nat.sub_le j 1) hj)]

theorem lossAt_congr {f g : Nat → ℚ} {i j : Nat}
    (h : agreeUpTo i f g) (hj : j ≤ i) : lossAt f j = lossAt g j := by
  unfold lossAt deltaAt
  rw [h j hj, h (j - 1) (le_trans (Nat.sub_le j 1) hj)]

theorem avgGainAt_congr {f g : Nat → ℚ} {p i : Nat}
    (h : agreeUpTo i f g) : avgGainAt f p i = avgGainAt g p i := by
  unfold avgGainAt
  by_cases hip : i + 1 < p
  · simp [hip]
  · rw [if_neg hip, if_neg hip]
    have : (windowIdx p i).map (gainAt f) = (windowIdx p i).map (gainAt g) := by
      apply List.map_congr_left
      intro j hj
      rw [windowIdx, List.mem_range'] at hj
      exact gainAt_congr h (by omega)
    rw [this]

theorem avgLossAt_congr {f g : Nat → ℚ} {p i : Nat}
    (h : agreeUpTo i f g) : avgLossAt f p i = avgLossAt g p i := by
  unfold avgLossAt
  by_cases hip : i + 1 < p
  · simp [hip]
  · rw [if_neg hip, if_neg hip]
    have : (windowIdx p i).map (lossAt f) = (windowIdx p i).map (lossAt g) := by
      apply List.map_congr_left
      intro j hj
      rw [windowIdx, List.mem_range'] at hj
      exact lossAt_congr h (by omega)
    rw [this]

theorem compute_rsiAt_congr {f g : Nat → ℚ} {p i : Nat}
    (h : agreeUpTo i f g) : compute_rsiAt f p i = compute_rsiAt g p i := by
  unfold compute_rsiAt
  rw [avgGainAt_congr h, avgLossAt_congr h]

theorem compute_macdAt_congr {f g : Nat → ℚ} {sp lp i : Nat}
    (h : agreeUpTo i f g) : compute_macdAt f sp lp i = compute_macdAt g sp lp i := by
  unfold compute_macdAt
  rw [emaAt_congr h, emaAt_congr h]

theorem macdSignalAt_congr {f g : Nat → ℚ} {sp lp sg i : Nat}
    (h : agreeUpTo i f g) : macdSignalAt f sp lp sg i = macdSignalAt g sp lp sg i := by
  unfold macdSignalAt
  exact emaAt_congr (fun j hj => compute_macdAt_congr (agreeUpTo_mono h hj))

theorem rollVarAt_congr {f g : Nat → ℚ} {p i : Nat}
    (h : agreeUpTo i f g) : rollVarAt f p i = rollVarAt g p i := by
  unfold rollVarAt
  by_cases hip : i + 1 < p ∨ p < 2
  · simp [hip]
  · rw [if_neg hip, if_neg hip, map_windowIdx_congr (by omega) h]

theorem rollStdAt_congr {sqrtFn : ℚ → ℚ} {f g : Nat → ℚ} {p i : Nat}
    (h : agreeUpTo i f g) : rollStdAt sqrtFn f p i = rollStdAt sqrtFn g p i := by
  unfold rollStdAt
  rw [rollVarAt_congr h]

theorem upperBandAt_congr {sqrtFn : ℚ → ℚ} {f g : Nat → ℚ} {p : Nat} {k : ℚ}
    {i : Nat} (h : agreeUpTo i f g) :
    upperBandAt sqrtFn f p k i = upperBandAt sqrtFn g p k i := by
  unfold upperBandAt
  rw [rollMeanAt_congr h, rollStdAt_congr h]

theorem lowerBandAt_congr {sqrtFn : ℚ → ℚ} {f g : Nat → ℚ} {p : Nat} {k : ℚ}
    {i : Nat} (h : agreeUpTo i f g) :
    lowerBandAt sqrtFn f p k i = lowerBandAt sqrtFn g p k i := by
  unfold lowerBandAt
  rw [rollMeanAt_congr h, rollStdAt_congr h]

theorem compute_momentumAt_congr {f g : Nat → ℚ} {p i : Nat}
    (h : agreeUpTo i f g) : compute_momentumAt f p i = compute_momentumAt g p i := by
  unfold compute_momentumAt
  rw [h i (le_refl i), h (i - p) (Nat.sub_le i p)]

theorem compute_stoch_rsiAt_congr {gf gg : Nat → Option ℚ} {p i : Nat}
    (h : agreeUpTo i gf gg) :
    compute_stoch_rsiAt gf p i = compute_stoch_rsiAt gg p i := by
  unfold compute_stoch_rsiAt
  by_cases hip : i + 1 < p
  · simp [hip]
  · rw [if_neg hip, if_neg hip, map_windowIdx_congr (by omega) h,
      h i (le_refl i)]

theorem atIdx_take_agree (closes : List ℚ) (i : Nat) :
    agreeUpTo i (atIdx closes) (atIdx (closes.take (i + 1))) := by
  intro j hj
  unfold atIdx
  rw [List.getD_eq_getElem?_getD, List.getD_eq_getElem?_getD,
    List.getElem?_take, if_pos (by omega)]

/-- Each row of the enriched series depends only on the input prefix ending
at its own index: computing the pipeline on `closes.take (i+1)` yields the
same row `i`. -/
theorem rowAt_take (sqrtFn : ℚ → ℚ) (closes : List ℚ) (i : Nat) :
    rowAt sqrtFn closes i = rowAt sqrtFn (closes.take (i + 1)) i := by
  have h := atIdx_take_agree closes i
  unfold rowAt
  rw [h i (le_refl i), rollMeanAt_congr h, rollMeanAt_congr h,
    emaAt_congr h, emaAt_congr h, compute_rsiAt_congr h,
    compute_macdAt_congr h, macdSignalAt_congr h, upperBandAt_congr h,
    lowerBandAt_congr h, compute_momentumAt_congr h,
    compute_stoch_rsiAt_congr (fun j hj =>
      compute_rsiAt_congr (agreeUpTo_mono h hj))]

/-- C7: the enriched series has exactly the length of the input, row `i` of
the output is the indicator vector at index `i` (index-for-index alignment),
and that vector is computed from the history ending at bar `i` only. -/
theorem C7_pipeline_alignment (sqrtFn : ℚ → ℚ) (closes : List ℚ) :
    (calculate_indicators sqrtFn closes).length = closes.length ∧
    ∀ i, i < closes.length →
      (calculate_indicators sqrtFn closes).getD i emptyRow =
        rowAt sqrtFn closes i ∧
      rowAt sqrtFn closes i = rowAt sqrtFn (closes.take (i + 1)) i := by
  refine ⟨by simp [calculate_indicators], ?_⟩
  intro i hi
  refine ⟨?_, rowAt_take sqrtFn closes i⟩
  simp [calculate_indicators, List.getD_eq_getElem?_getD, List.getElem?_map,
    List.getElem?_range hi]

/-- Witness for `C7_pipeline_alignment` on a two-bar series. -/
theorem C7_pipeline_alignment_witness :
    (calculate_indicators (fun _ => 0) [1, 2]).length = 2 ∧
    (calculate_indicators (fun _ => 0) [1, 2]).getD 1 emptyRow =
      rowAt (fun _ => 0) [1, 2] 1 ∧
    rowAt (fun _ => 0) [1, 2] 1 = rowAt (fun _ => 0) ([1, 2].take 2) 1 :=
  ⟨(C7_pipeline_alignment (fun _ => 0) [1, 2]).1,
   ((C7_pipeline_alignment (fun _ => 0) [1, 2]).2 1 (by norm_num)).1,
   ((C7_pipeline_alignment (fun _ => 0) [1, 2]).2 1 (by norm_num)).2⟩

/-! ### C10: the two Bollinger signals are mutually exclusive -/

theorem nanGt_eq_true {a b : Option ℚ} (h : nanGt a b = true) :
    ∃ x y, a = some x ∧ b = some y ∧ y < x := by
  cases a with
  | none => rw [nanGt_none_left] at h; exact absurd h (by simp)
  | some x =>
      cases b with
      | none => rw [nanGt_none_right] at h; exact absurd h (by simp)
      | some y => exact ⟨x, y, rfl, rfl, nanGt_some_some.1 h⟩

theorem nanLt_eq_true {a b : Option ℚ} (h : nanLt a b = true) :
    ∃ x y, a = some x ∧ b = some y ∧ x < y := by
  cases a with
  | none => rw [nanLt_none_left] at h; exact absurd h (by simp)
  | some x =>
      cases b with
      | none => rw [nanLt_none_right] at h; exact absurd h (by simp)
      | some y => exact ⟨x, y, rfl, rfl, nanLt_some_some.1 h⟩

theorem rollVarAt_nonneg {f : Nat → ℚ} {p i : Nat} {v : ℚ}
    (hp : 2 ≤ p) (h : rollVarAt f p i = some v) : 0 ≤ v := by
  unfold rollVarAt at h
  by_cases hc : i + 1 < p ∨ p < 2
  · rw [if_pos hc] at h
    exact absurd h (by simp)
  · rw [if_neg hc] at h
    have hv := Option.some_injective _ h
    rw [← hv]
    apply div_nonneg
    · apply List.sum_nonneg
      intro x hx
      rcases List.mem_map.1 hx with ⟨y, _, rfl⟩
      exact sq_nonneg _
    · have h2 : (2 : ℚ) ≤ (p : ℚ) := by exact_mod_cast hp
      linarith

/-- C10: on any row produced by the indicator pipeline, the Bollinger SELL
(close above the upper band) and Bollinger BUY (close below the lower band)
signals never co-occur: the rolling standard deviation is nonnegative, so
the upper band is at least the lower band. -/
theorem C10_bollinger_signals_exclusive (sqrtFn : ℚ → ℚ)
    (hs : ∀ x, 0 ≤ x → 0 ≤ sqrtFn x) (closes : List ℚ) (i : Nat) :
    ¬("SELL: Bollinger Band Breakout (Overbought)" ∈
        get_signals (rowAt sqrtFn closes i) ∧
      "BUY: Bollinger Band Breakout (Oversold)" ∈
        get_signals (rowAt sqrtFn closes i)) := by
  rintro ⟨hsell, hbuy⟩
  rw [mem_get_signals_iff] at hsell hbuy
  simp only [String.reduceEq, and_false, false_or, or_false, and_true] at hsell hbuy
  rcases nanGt_eq_true hsell with ⟨c, u, hc, hu, hcu⟩
  rcases nanLt_eq_true hbuy with ⟨c', l, hc', hl, hcl⟩
  rw [hc] at hc'
  have hcc : c = c' := Option.some_injective _ hc'
  subst hcc
  have hUB : upperBandAt sqrtFn (atIdx closes) 20 2 i = some u := hu
  have hLB : lowerBandAt sqrtFn (atIdx closes) 20 2 i = some l := hl
  cases hm : rollMeanAt (atIdx closes) 20 i with
  | none =>
      unfold upperBandAt at hUB
      rw [hm] at hUB
      exact absurd hUB (by simp)
  | some m =>
      cases hv : rollVarAt (atIdx closes) 20 i with
      | none =>
          unfold upperBandAt rollStdAt at hUB
          rw [hm, hv] at hUB
          exact absurd hUB (by simp)
      | some v =>
          have hstd : rollStdAt sqrtFn (atIdx closes) 20 i = some (sqrtFn v) := by
            unfold rollStdAt
            rw [hv]
            rfl
          unfold upperBandAt at hUB
          unfold lowerBandAt at hLB
          rw [hm, hstd] at hUB hLB
          have hu' : m + 2 * sqrtFn v = u := Option.some_injective _ hUB
          have hl' : m - 2 * sqrtFn v = l := Option.some_injective _ hLB
          have hsv : 0 ≤ sqrtFn v := hs v (rollVarAt_nonneg (by norm_num) hv)
          linarith

/-- Witness for `C10_bollinger_signals_exclusive` with the zero square root
on a one-bar series. -/
theorem C10_bollinger_signals_exclusive_witness :
    ¬("SELL: Bollinger Band Breakout (Overbought)" ∈
        get_signals (rowAt (fun _ => 0) [1] 0) ∧
      "BUY: Bollinger Band Breakout (Oversold)" ∈
        get_signals (rowAt (fun _ => 0) [1] 0)) :=
  C10_bollinger_signals_exclusive (fun _ => 0) (fun _ _ => le_refl 0) [1] 0

/-! ### C8: response contract and notification dispatch -/

/-- C8: for a non-empty fetched series the response carries the latest
close as `price` together with the evaluator's signal list for the latest
enriched row; the alert is dispatched exactly when that list is non-empty;
and the transport's outcome never changes the returned price or signals. -/
theorem C8_track_price_contract (sqrtFn : ℚ → ℚ) (transport : String → Bool)
    (closes : List ℚ) (h : closes ≠ []) :
    (track_price sqrtFn transport closes).price =
      atIdx closes (closes.length - 1) ∧
    (track_price sqrtFn transport closes).signals =
      get_signals (rowAt sqrtFn closes (closes.length - 1)) ∧
    ((track_price sqrtFn transport closes).dispatched = true ↔
      (track_price sqrtFn transport closes).signals ≠ []) ∧
    (∀ transportB : String → Bool,
      (track_price sqrtFn transportB closes).price =
        (track_price sqrtFn transport closes).price ∧
      (track_price sqrtFn transportB closes).signals =
        (track_price sqrtFn transport closes).signals) := by
  have hlen : 0 < closes.length := List.length_pos.2 h
  have hrow : (calculate_indicators sqrtFn closes).getD
      ((calculate_indicators sqrtFn closes).length - 1) emptyRow =
      rowAt sqrtFn closes (closes.length - 1) := by
    simp only [calculate_indicators, List.length_map, List.length_range]
    simp [List.getD_eq_getElem?_getD, List.getElem?_map,
      List.getElem?_range (by omega : closes.length - 1 < closes.length)]
  refine ⟨rfl, ?_, ?_, fun transportB => ⟨rfl, rfl⟩⟩
  · show get_signals ((calculate_indicators sqrtFn closes).getD
        ((calculate_indicators sqrtFn closes).length - 1) emptyRow) =
      get_signals (rowAt sqrtFn closes (closes.length - 1))
    rw [hrow]
  · simp [track_price]

/-- Witness for `C8_track_price_contract` on a one-bar series with an
always-succeeding transport. -/
theorem C8_track_price_contract_witness :
    (track_price (fun _ => 0) (fun _ => true) [1]).price = atIdx [1] 0 ∧
    ((track_price (fun _ => 0) (fun _ => true) [1]).dispatched = true ↔
      (track_price (fun _ => 0) (fun _ => true) [1]).signals ≠ []) ∧
    (track_price (fun _ => 0) (fun _ => false) [1]).signals =
      (track_price (fun _ => 0) (fun _ => true) [1]).signals :=
  ⟨(C8_track_price_contract (fun _ => 0) (fun _ => true) [1] (by simp)).1,
   (C8_track_price_contract (fun _ => 0) (fun _ => true) [1] (by simp)).2.2.1,
   ((C8_track_price_contract (fun _ => 0) (fun _ => true) [1] (by simp)).2.2.2
     (fun _ => false)).2⟩
